import Mathlib

/-!
Shallow embedding of the backend dispatch and resilience layer of
src/server.mjs (the dual-backend Gemini MCP server, version 3.0.0).

JavaScript strings are modelled as Lean `String`; the string helpers the
source relies on (`includes`, `toLowerCase`, `trim`, `split(',')`) are
embedded as executable functions over `List Char` so that every
definition reduces in the kernel.  Mutable globals (`currentKeyIndex`)
are threaded explicitly as state.  The outbound network call
(`client.models.generateContent`) is the only effectful operation; it is
modelled by an oracle `Nat → GenOutcome` giving the outcome of each
successive attempt of one tool call.
-/

namespace GeminiServer

/-- Embedding of JS `String.prototype.startsWith` at the character-list
level: `startsWithChars sub l` is true when `sub` is an initial segment
of `l`. -/
def startsWithChars : List Char → List Char → Bool
  | [], _ => true
  | _ :: _, [] => false
  | c :: cs, d :: ds => if c = d then startsWithChars cs ds else false

/-- Embedding of JS `String.prototype.includes` at the character-list
level: `hasSubChars sub l` is true when `sub` occurs contiguously
inside `l`. -/
def hasSubChars (sub : List Char) : List Char → Bool
  | [] => startsWithChars sub []
  | c :: rest => startsWithChars sub (c :: rest) || hasSubChars sub rest

/-- JS `s.includes(sub)`. -/
def jsIncludes (s sub : String) : Bool := hasSubChars sub.data s.data

/-- JS `String.prototype.toLowerCase` (ASCII-adequate model). -/
def jsToLower (s : String) : String := String.mk (s.data.map Char.toLower)

/-- Character-list core of JS `String.prototype.trim`: drop leading and
trailing whitespace. -/
def trimChars (l : List Char) : List Char :=
  ((l.dropWhile Char.isWhitespace).reverse.dropWhile Char.isWhitespace).reverse

/-- JS `s.trim()`. -/
def jsTrim (s : String) : String := String.mk (trimChars s.data)

/-- Embedding of JS `String.prototype.split(',')`: split a character
list at every comma; `[]` splits to `[[]]` exactly as `''.split(',')`
is `['']`. -/
def splitOnComma : List Char → List (List Char)
  | [] => [[]]
  | c :: rest =>
    let r := splitOnComma rest
    if c = ',' then [] :: r
    else
      match r with
      | [] => [[c]]
      | h :: t => (c :: h) :: t

/-- src/server.mjs lines 50-53: the credential pool.
`(process.env.GEMINI_API_KEYS || process.env.GEMINI_API_KEY || '')
.split(',').map(k => k.trim()).filter(Boolean)`.
An unset environment variable is modelled as the empty string (both are
falsy in JS). -/
def parseApiKeys (keysEnv keyEnv : String) : List String :=
  let src := if keysEnv ≠ "" then keysEnv else if keyEnv ≠ "" then keyEnv else ""
  (((splitOnComma src.data).map trimChars).filter (fun l => l ≠ [])).map String.mk

/-- src/server.mjs lines 39-46: the set of models known to work on
Vertex AI (the Model Capability Registry). -/
def VERTEX_MODELS : List String :=
  ["gemini-3-pro-preview", "gemini-3-flash-preview", "gemini-2.5-pro",
   "gemini-2.5-flash", "gemini-2.5-flash-lite", "gemini-2.0-flash-001"]

/-- Startup configuration consumed by the dispatch core: the (lowercased)
GEMINI_BACKEND routing mode, the parsed API-key pool, and the
GEMINI_LOCATION region string. -/
structure Config where
  backend : String
  apiKeys : List String
  location : String

/-- src/server.mjs lines 74-82: `vertexClient` is constructed (non-null)
exactly when the backend mode is `vertex` or `auto`; construction never
fails. -/
def hasVertexClient (cfg : Config) : Bool :=
  if cfg.backend = "vertex" then true else if cfg.backend = "auto" then true else false

/-- src/server.mjs lines 57-60: `getApiKey`, the Credential Pool read at
the current cursor (taken modulo pool size). -/
def getApiKey (cfg : Config) (idx : Nat) : Option String :=
  if cfg.apiKeys.length = 0 then none
  else cfg.apiKeys.get? (idx % cfg.apiKeys.length)

/-- src/server.mjs lines 62-66: `rotateApiKey` as a pure state
transformer; returns (result, new cursor). -/
def rotateApiKey (keys : List String) (idx : Nat) : Bool × Nat :=
  if keys.length ≤ 1 then (false, idx)
  else (true, (idx + 1) % keys.length)

/-- The cursor component of one `rotateApiKey` call. -/
def rotateCursor (keys : List String) (idx : Nat) : Nat :=
  (rotateApiKey keys idx).2

/-- Result of `getClient`: whether the returned client is non-null, and
the `via` tag (one of "vertex", "apikey", "none"). -/
structure ClientSel where
  clientPresent : Bool
  via : String
  deriving DecidableEq, Repr

/-- src/server.mjs lines 84-105: `getClient(model)` backend selection.
`makeApiKeyClient(null)` is null, so in the `apikey` branches
`clientPresent` is the presence of a key. -/
def getClient (cfg : Config) (idx : Nat) (model : String) : ClientSel :=
  if cfg.backend = "vertex" then
    { clientPresent := hasVertexClient cfg, via := "vertex" }
  else if cfg.backend = "apikey" then
    { clientPresent := (getApiKey cfg idx).isSome, via := "apikey" }
  else if VERTEX_MODELS.contains model ∧ hasVertexClient cfg = true then
    { clientPresent := true, via := "vertex" }
  else if (getApiKey cfg idx).isSome then
    { clientPresent := true, via := "apikey" }
  else if hasVertexClient cfg then
    { clientPresent := true, via := "vertex" }
  else
    { clientPresent := false, via := "none" }

/-- src/server.mjs lines 107-113: `isResourceExhausted(err)`; the error
is modelled by its message string (the code inspects
`err.message || String(err)`). -/
def isResourceExhausted (msg : String) : Bool :=
  let m := jsToLower msg
  jsIncludes m "resource_exhausted" ||
  jsIncludes m "resource has been exhausted" ||
  jsIncludes m "quota" ||
  jsIncludes m "429"

/-- The error taxonomy the dispatcher acts on: quota exhaustion triggers
credential rotation, everything else is fatal. -/
inductive ErrorClass where
  | quotaExhausted
  | fatal
  deriving DecidableEq, Repr

/-- The classifier the dispatch loop implements: an error is
`quotaExhausted` exactly when `isResourceExhausted` accepts it, and
`fatal` otherwise (src/server.mjs line 262: only that predicate decides
whether rotation is attempted). -/
def classify (msg : String) : ErrorClass :=
  if isResourceExhausted msg then .quotaExhausted else .fatal

/-- The known quota signals, exactly the four substrings of
src/server.mjs lines 109-112 (all lowercase). -/
def quotaSignals : List String :=
  ["resource_exhausted", "resource has been exhausted", "quota", "429"]

/-- Specification-side predicate (§4.4 of the spec): the lowercased
message contains one of the known resource-exhaustion / rate-limit
signals as a contiguous substring. -/
def quotaSignalSpec (msg : String) : Prop :=
  ∃ s ∈ quotaSignals, ∃ a b, (jsToLower msg).data = a ++ s.data ++ b

/-- Outcome of one `client.models.generateContent` call: success with
response text and a grounding-metadata flag, or failure with an error
message. -/
inductive GenOutcome where
  | ok (text : String) (grounded : Bool)
  | fail (msg : String)

/-- The MCP tool result: one text content item plus the isError flag. -/
structure Envelope where
  text : String
  isError : Bool
  deriving DecidableEq, Repr

/-- Result of one full dispatch, with the observables the proofs need:
the envelope, how many generate calls were made, which `via` kinds were
tried in order, the final rotation cursor, and the last error seen. -/
structure DispatchOut where
  env : Envelope
  attempts : Nat
  kindsTried : List String
  finalIdx : Nat
  lastErr : Option String
  deriving DecidableEq, Repr

/-- src/server.mjs lines 250-254: the success annotation prefixed to the
response text. -/
def successText (cfg : Config) (model via : String) (idx : Nat)
    (responseText : String) (grounded : Bool) : String :=
  let backend := if via = "vertex" then "Vertex AI | " ++ cfg.location else "AI Studio"
  let keyInfo :=
    if via = "apikey" ∧ 1 < cfg.apiKeys.length then
      " | key " ++ toString (idx % cfg.apiKeys.length + 1) ++ "/" ++
        toString cfg.apiKeys.length
    else ""
  let groundingInfo := if grounded then "\n\n[Search grounding was used]" else ""
  "[Gemini " ++ model ++ " | " ++ backend ++ keyInfo ++ "]\n" ++
    responseText ++ groundingInfo

/-- src/server.mjs lines 224-232: the configuration-error text returned
when `getClient` produced a null client. -/
def configErrorText (cfg : Config) (via : String) : String :=
  let hint :=
    if via = "none" then
      "No backend configured. Set GEMINI_API_KEY or GOOGLE_APPLICATION_CREDENTIALS."
    else "Backend \"" ++ cfg.backend ++ "\" not available."
  "Gemini config error: " ++ hint

/-- src/server.mjs lines 271-276: the terminal failure text (with
`String(null)` rendered for a never-set lastError, which the live code
cannot actually reach). -/
def finalErrorText (cfg : Config) (model : String) (lastError : Option String) : String :=
  let msg := match lastError with | some m => m | none => "null"
  let exhaustedHint :=
    match lastError with
    | some m =>
        if isResourceExhausted m then
          " All " ++ toString cfg.apiKeys.length ++ " API key(s) exhausted."
        else ""
    | none => ""
  "Gemini error (" ++ model ++ "):" ++ exhaustedHint ++ " " ++ msg

/-- src/server.mjs lines 217-269: the retry loop body.  `fuel` is the
number of loop iterations still allowed (`maxAttempts - attempt`),
`idx` the rotation cursor, `lastError` the error of the latest failed
attempt, `attempts`/`kinds` the trace accumulated so far.  In the catch
branch (lines 258-268) rotation is attempted only when the failing call
went via the keyed backend and the error matches the quota signature;
a pool of size ≤ 1 makes `rotateApiKey` return false without moving the
cursor, so the pure model may compute the rotation unconditionally. -/
def dispatchLoop (cfg : Config) (model : String) (oracle : Nat → GenOutcome) :
    Nat → Nat → Nat → Option String → Nat → List String → DispatchOut
  | _, 0, idx, lastError, attempts, kinds =>
    { env := { text := finalErrorText cfg model lastError, isError := true },
      attempts := attempts, kindsTried := kinds, finalIdx := idx, lastErr := lastError }
  | attempt, fuel + 1, idx, lastError, attempts, kinds =>
    let sel := getClient cfg idx model
    if sel.clientPresent = false then
      { env := { text := configErrorText cfg sel.via, isError := true },
        attempts := attempts, kindsTried := kinds, finalIdx := idx, lastErr := lastError }
    else
      match oracle attempt with
      | .ok text grounded =>
        { env := { text := successText cfg model sel.via idx text grounded,
                   isError := false },
          attempts := attempts + 1, kindsTried := kinds ++ [sel.via],
          finalIdx := idx, lastErr := lastError }
      | .fail e =>
        let rot := rotateApiKey cfg.apiKeys idx
        if sel.via = "apikey" ∧ isResourceExhausted e = true ∧ rot.1 = true then
          dispatchLoop cfg model oracle (attempt + 1) fuel rot.2 (some e)
            (attempts + 1) (kinds ++ [sel.via])
        else
          { env := { text := finalErrorText cfg model (some e), isError := true },
            attempts := attempts + 1, kindsTried := kinds ++ [sel.via],
            finalIdx := idx, lastErr := some e }

/-- One full dispatch of a tool call: the loop entered with
`maxAttempts = max(API_KEYS.length, 1)` (src/server.mjs line 218) and
the current global rotation cursor `idx`. -/
def dispatch (cfg : Config) (model : String) (oracle : Nat → GenOutcome)
    (idx : Nat) : DispatchOut :=
  dispatchLoop cfg model oracle 0 (max cfg.apiKeys.length 1) idx none 0 []

/-- A configuration under which `getClient` always returns a usable
client: a non-empty key pool, or a backend mode that constructs the
Vertex client. -/
def goodCfg (cfg : Config) : Prop :=
  cfg.apiKeys ≠ [] ∨ cfg.backend = "auto" ∨ cfg.backend = "vertex"

/-- Whether the last error recorded by a dispatch matches the
quota-exhaustion signature (the check src/server.mjs line 272 applies
to `lastError`). -/
def lastErrQuota (D : DispatchOut) : Bool :=
  match D.lastErr with
  | some e => isResourceExhausted e
  | none => false

/-- src/server.mjs lines 192-195: context prepending.  `context` is the
optional argument; JS `if (context)` treats an empty string like an
absent one. -/
def buildFullPrompt (context : Option String) (prompt : String) : String :=
  match context with
  | some c => if c ≠ "" then "Context:\n" ++ c ++ "\n\n" ++ prompt else prompt
  | none => prompt

/-- The outbound generation config actually sent: the thinking level if
a thinkingConfig is attached, and the tool list (the googleSearch tool
is represented by its name). -/
structure OutboundConfig where
  thinkingLevel : Option String
  tools : List String
  deriving DecidableEq, Repr

/-- src/server.mjs lines 182-188 and 197-208: argument defaulting
(`googleSearch = true`, `thinkingLevel = 'HIGH'` when omitted) followed
by construction of the outbound config.  Robotics models get no
thinkingConfig; the googleSearch tool is attached exactly when the
toggle is truthy. -/
def buildConfig (model : String) (googleSearch : Option Bool)
    (thinkingLevel : Option String) : OutboundConfig :=
  let gs := googleSearch.getD true
  let tl := thinkingLevel.getD "HIGH"
  let isRobotics := jsIncludes model "robotics"
  { thinkingLevel := if tl ≠ "NONE" ∧ isRobotics = false then some tl else none,
    tools := if gs then ["googleSearch"] else [] }

/-! Section: Helper lemmas on rotation -/

theorem rotateCursor_small {keys : List String} (idx : Nat) (h : keys.length ≤ 1) :
    rotateCursor keys idx = idx := by
  simp [rotateCursor, rotateApiKey, h]

theorem rotateCursor_big {keys : List String} (idx : Nat) (h : 2 ≤ keys.length) :
    rotateCursor keys idx = (idx + 1) % keys.length := by
  simp only [rotateCursor, rotateApiKey]
  rw [if_neg (by omega)]

theorem rotateCursor_iterate {keys : List String} (h : 2 ≤ keys.length) :
    ∀ (j idx : Nat), (rotateCursor keys)^[j + 1] idx = (idx + (j + 1)) % keys.length := by
  intro j
  induction j with
  | zero =>
    intro idx
    simp [Function.iterate_one, rotateCursor_big idx h]
  | succ j ih =>
    intro idx
    rw [Function.iterate_succ_apply']
    rw [ih idx, rotateCursor_big _ h, Nat.mod_add_mod]
    congr 1

/-! Section: Helper lemmas on the attempt budget -/

theorem dispatchLoop_attempts_le (cfg : Config) (model : String)
    (oracle : Nat → GenOutcome) :
    ∀ (fuel attempt idx : Nat) (lastError : Option String)
      (attempts : Nat) (kinds : List String),
      (dispatchLoop cfg model oracle attempt fuel idx lastError attempts kinds).attempts
        ≤ attempts + fuel := by
  intro fuel
  induction fuel with
  | zero =>
    intro attempt idx lastError attempts kinds
    simp [dispatchLoop]
  | succ f ih =>
    intro attempt idx lastError attempts kinds
    simp only [dispatchLoop]
    split
    · simp
    · split
      · simp
      · split
        · exact le_trans (ih _ _ _ _ _) (by omega)
        · simp

/-- C3: for every configuration, model, starting cursor and every
possible sequence of backend outcomes (in particular when every attempt
fails with a quota-exhaustion signature and rotation always succeeds),
the dispatch loop performs at most `max (credential pool size) 1`
generate attempts; termination is inherent since `dispatch` is a total
function. -/
theorem c3_attempt_budget (cfg : Config) (model : String)
    (oracle : Nat → GenOutcome) (idx : Nat) :
    (dispatch cfg model oracle idx).attempts ≤ max cfg.apiKeys.length 1 := by
  have h := dispatchLoop_attempts_le cfg model oracle
    (max cfg.apiKeys.length 1) 0 idx none 0 []
  simpa [dispatch] using h

/-- C4: for a pool of size N and any reachable starting cursor (the
cursor starts at 0 and, as the third conjunct shows, rotation keeps it
below `max N 1`, so every reachable cursor satisfies the hypothesis),
N consecutive rotations return the cursor to its starting value; and on
a pool of size ≤ 1 `rotateApiKey` returns false and leaves the cursor
unchanged. -/
theorem c4_rotation_period (keys : List String) (idx : Nat)
    (h : idx < max keys.length 1) :
    (rotateCursor keys)^[keys.length] idx = idx
    ∧ (keys.length ≤ 1 → rotateApiKey keys idx = (false, idx))
    ∧ rotateCursor keys idx < max keys.length 1 := by
  have hmax : keys.length ≤ 1 ∨ max keys.length 1 = keys.length := by
    rcases Nat.le_total keys.length 1 with h1 | h1
    · exact Or.inl h1
    · exact Or.inr (Nat.max_eq_left h1)
  refine ⟨?_, ?_, ?_⟩
  · rcases Nat.lt_or_ge keys.length 2 with hlt | hge
    · have h01 : keys.length = 0 ∨ keys.length = 1 := by omega
      rcases h01 with h0 | h1
      · rw [h0]
        simp
      · rw [h1]
        simp only [Function.iterate_one]
        exact @rotateCursor_small keys idx (by omega)
    · obtain ⟨m, hm⟩ : ∃ m, keys.length = m + 1 := ⟨keys.length - 1, by omega⟩
      have hidx : idx < keys.length := by omega
      calc (rotateCursor keys)^[keys.length] idx
          = (rotateCursor keys)^[m + 1] idx := by rw [hm]
        _ = (idx + (m + 1)) % keys.length := rotateCursor_iterate hge m idx
        _ = (idx + keys.length) % keys.length := by rw [hm]
        _ = idx % keys.length := by rw [Nat.add_mod_right]
        _ = idx := Nat.mod_eq_of_lt hidx
  · intro hle
    simp [rotateApiKey, hle]
  · rcases Nat.lt_or_ge keys.length 2 with hlt | hge
    · rw [rotateCursor_small idx (by omega)]
      exact h
    · rw [rotateCursor_big idx hge]
      have hmod : (idx + 1) % keys.length < keys.length := Nat.mod_lt _ (by omega)
      omega

/-- Witness for C4 at the concrete pool ["a", "b", "c"] and cursor 0. -/
theorem c4_rotation_period_witness :
    (0 < max (["a", "b", "c"] : List String).length 1)
    ∧ ((rotateCursor ["a", "b", "c"])^[(["a", "b", "c"] : List String).length] 0 = 0
       ∧ ((["a", "b", "c"] : List String).length ≤ 1 →
            rotateApiKey ["a", "b", "c"] 0 = (false, 0))
       ∧ rotateCursor ["a", "b", "c"] 0 < max (["a", "b", "c"] : List String).length 1) :=
  ⟨by decide, c4_rotation_period ["a", "b", "c"] 0 (by decide)⟩

/-! Section: Substring machinery -/

theorem startsWithChars_iff (sub l : List Char) :
    startsWithChars sub l = true ↔ ∃ t, l = sub ++ t := by
  induction sub generalizing l with
  | nil => simp [startsWithChars]
  | cons c cs ih =>
    cases l with
    | nil =>
      simp [startsWithChars]
    | cons d ds =>
      simp only [startsWithChars]
      by_cases hcd : c = d
      · subst hcd
        simp [ih]
      · simp only [if_neg hcd, List.cons_append, List.cons.injEq]
        constructor
        · intro hfalse
          exact absurd hfalse (by simp)
        · rintro ⟨t, hd, -⟩
          exact absurd hd.symm hcd

theorem hasSubChars_iff (sub l : List Char) :
    hasSubChars sub l = true ↔ ∃ a b, l = a ++ sub ++ b := by
  induction l with
  | nil =>
    simp only [hasSubChars, startsWithChars_iff]
    constructor
    · rintro ⟨t, ht⟩
      exact ⟨[], t, by simpa using ht⟩
    · rintro ⟨a, b, hab⟩
      rw [eq_comm, List.append_eq_nil, List.append_eq_nil] at hab
      exact ⟨b, by simp [hab.1.2, hab.2]⟩
  | cons c rest ih =>
    simp only [hasSubChars, Bool.or_eq_true, startsWithChars_iff, ih]
    constructor
    · rintro (⟨t, ht⟩ | ⟨a, b, hab⟩)
      · exact ⟨[], t, by simpa using ht⟩
      · exact ⟨c :: a, b, by simp [hab]⟩
    · rintro ⟨a, b, hab⟩
      cases a with
      | nil => exact Or.inl ⟨b, by simpa using hab⟩
      | cons x a2 =>
        simp only [List.cons_append, List.cons.injEq] at hab
        exact Or.inr ⟨a2, b, hab.2⟩

theorem jsIncludes_intro (s sub : String) (a b : List Char)
    (h : s.data = a ++ sub.data ++ b) : jsIncludes s sub = true := by
  rw [jsIncludes, hasSubChars_iff]
  exact ⟨a, b, h⟩

theorem string_data_append (s t : String) : (s ++ t).data = s.data ++ t.data := rfl

/-- The Boolean quota test agrees with the specification-side substring
predicate. -/
theorem isResourceExhausted_iff (msg : String) :
    isResourceExhausted msg = true ↔ quotaSignalSpec msg := by
  constructor
  · intro h
    simp only [isResourceExhausted, Bool.or_eq_true, jsIncludes, hasSubChars_iff] at h
    rcases h with ((⟨a, b, hab⟩ | ⟨a, b, hab⟩) | ⟨a, b, hab⟩) | ⟨a, b, hab⟩
    · exact ⟨"resource_exhausted", by simp [quotaSignals], a, b, hab⟩
    · exact ⟨"resource has been exhausted", by simp [quotaSignals], a, b, hab⟩
    · exact ⟨"quota", by simp [quotaSignals], a, b, hab⟩
    · exact ⟨"429", by simp [quotaSignals], a, b, hab⟩
  · rintro ⟨s, hs, a, b, hab⟩
    simp only [isResourceExhausted, Bool.or_eq_true, jsIncludes, hasSubChars_iff]
    simp only [quotaSignals, List.mem_cons, List.not_mem_nil, or_false] at hs
    rcases hs with rfl | rfl | rfl | rfl
    · exact Or.inl (Or.inl (Or.inl ⟨a, b, hab⟩))
    · exact Or.inl (Or.inl (Or.inr ⟨a, b, hab⟩))
    · exact Or.inl (Or.inr ⟨a, b, hab⟩)
    · exact Or.inr ⟨a, b, hab⟩

/-- C7: the classifier is a pure function of the error message that
returns quota-exhausted exactly when the lowercased message contains one
of the known resource-exhaustion / rate-limit signals (including the
"429" too-many-requests status text), and classifies every other
failure as fatal. -/
theorem c7_error_classifier (msg : String) :
    (classify msg = ErrorClass.quotaExhausted ↔ quotaSignalSpec msg)
    ∧ (classify msg = ErrorClass.quotaExhausted ∨ classify msg = ErrorClass.fatal) := by
  refine ⟨?_, ?_⟩
  · rw [← isResourceExhausted_iff]
    unfold classify
    by_cases h : isResourceExhausted msg <;> simp [h]
  · unfold classify
    by_cases h : isResourceExhausted msg <;> simp [h]

theorem jsIncludes_self (s : String) : jsIncludes s s = true := by
  rw [jsIncludes, hasSubChars_iff]
  exact ⟨[], [], by simp⟩

theorem jsIncludes_left (x y sub : String) (h : jsIncludes x sub = true) :
    jsIncludes (x ++ y) sub = true := by
  rw [jsIncludes, hasSubChars_iff] at h ⊢
  obtain ⟨a, b, hab⟩ := h
  exact ⟨a, b ++ y.data, by simp [string_data_append, hab]⟩

theorem jsIncludes_right (x y sub : String) (h : jsIncludes y sub = true) :
    jsIncludes (x ++ y) sub = true := by
  rw [jsIncludes, hasSubChars_iff] at h ⊢
  obtain ⟨a, b, hab⟩ := h
  exact ⟨x.data ++ a, b, by simp [string_data_append, hab]⟩

/-- C9: a call that supplies a (non-empty) optionalContextText produces
an outgoing prompt that is exactly the "Context:" marker, the context
text, the blank-line delimiter, then the original prompt — so the
context appears before the prompt, separated by a recognizable
delimiter — and a call without context sends the prompt unchanged. -/
theorem c9_context_prepending (c p : String) :
    (c ≠ "" → buildFullPrompt (some c) p = "Context:\n" ++ c ++ "\n\n" ++ p)
    ∧ buildFullPrompt none p = p := by
  constructor
  · intro hc
    simp [buildFullPrompt, hc]
  · rfl

/-- Witness for C9 at a concrete context and prompt. -/
theorem c9_context_prepending_witness :
    (("file contents" : String) ≠ ""
     ∧ buildFullPrompt (some "file contents") "explain" =
         "Context:\n" ++ "file contents" ++ "\n\n" ++ "explain")
    ∧ buildFullPrompt none "explain" = "explain" :=
  ⟨⟨by decide, (c9_context_prepending "file contents" "explain").1 (by decide)⟩,
   (c9_context_prepending "file contents" "explain").2⟩

/-- C10: an omitted googleSearch toggle defaults to true, so the
external-search tool is included in the outbound config; an omitted
thinking level behaves exactly like supplying HIGH; and the
googleSearch tool is excluded from the outbound config precisely when
the toggle is supplied as false. -/
theorem c10_argument_defaults (model : String) (googleSearch : Option Bool)
    (thinkingLevel : Option String) :
    (buildConfig model none thinkingLevel).tools = ["googleSearch"]
    ∧ buildConfig model googleSearch none = buildConfig model googleSearch (some "HIGH")
    ∧ ((buildConfig model googleSearch thinkingLevel).tools = []
        ↔ googleSearch = some false) := by
  refine ⟨?_, rfl, ?_⟩
  · simp [buildConfig]
  · cases googleSearch with
    | none => simp [buildConfig]
    | some b => cases b <;> simp [buildConfig]

/-! Section: Backend selection -/

theorem getApiKey_isSome {cfg : Config} (idx : Nat) (hk : cfg.apiKeys ≠ []) :
    (getApiKey cfg idx).isSome = true := by
  have hlen : cfg.apiKeys.length ≠ 0 := by
    simpa [List.length_eq_zero] using hk
  have hlt : idx % cfg.apiKeys.length < cfg.apiKeys.length :=
    Nat.mod_lt _ (by omega)
  rw [getApiKey, if_neg hlen, List.get?_eq_get hlt]
  rfl

/-- C1 counterexample: the model "gemini-9-ultra" is absent from the
Registry, the managed (Vertex) client IS configured under auto mode,
yet selection yields the keyed backend, and a full dispatch with a
fatal failure only ever tries the keyed backend — the managed backend
is never attempted before a keyed one. -/
theorem c1_auto_routing_counterexample :
    (getClient ⟨"auto", ["k"], "global"⟩ 0 "gemini-9-ultra").via = "apikey"
    ∧ hasVertexClient ⟨"auto", ["k"], "global"⟩ = true
    ∧ (dispatch ⟨"auto", ["k"], "global"⟩ "gemini-9-ultra"
         (fun _ => .fail "bad request") 0).kindsTried = ["apikey"] := by
  decide

/-- C1 (amended): under auto mode the managed backend is attempted
first only for models present in the Registry; a model absent from the
Registry is routed to the keyed backend whenever an API key is
configured, and reaches the managed client only when the key pool is
empty. -/
theorem c1_auto_routing (cfg : Config) (idx : Nat) (model : String)
    (hb : cfg.backend = "auto") :
    (VERTEX_MODELS.contains model = true →
       getClient cfg idx model = ⟨true, "vertex"⟩)
    ∧ (VERTEX_MODELS.contains model = false → cfg.apiKeys ≠ [] →
       getClient cfg idx model = ⟨true, "apikey"⟩)
    ∧ (VERTEX_MODELS.contains model = false → cfg.apiKeys = [] →
       getClient cfg idx model = ⟨true, "vertex"⟩) := by
  have hv : hasVertexClient cfg = true := by simp [hasVertexClient, hb]
  refine ⟨?_, ?_, ?_⟩
  · intro hm
    have hm2 : model ∈ VERTEX_MODELS := by simpa using hm
    simp [getClient, hb, hv, hm2]
  · intro hm hk
    have hm2 : model ∉ VERTEX_MODELS := by simpa using hm
    have hsome := @getApiKey_isSome cfg idx hk
    simp [getClient, hb, hv, hm2, hsome]
  · intro hm hk
    have hm2 : model ∉ VERTEX_MODELS := by simpa using hm
    have hnone : (getApiKey cfg idx).isSome = false := by
      simp [getApiKey, hk]
    simp [getClient, hb, hv, hm2, hnone]

/-- Witness for C1 (amended) at concrete configurations and models. -/
theorem c1_auto_routing_witness :
    getClient ⟨"auto", ["k"], "global"⟩ 0 "gemini-2.5-pro" = ⟨true, "vertex"⟩
    ∧ getClient ⟨"auto", ["k"], "global"⟩ 0 "gemini-9-zzz" = ⟨true, "apikey"⟩
    ∧ getClient ⟨"auto", [], "global"⟩ 0 "gemini-9-zzz" = ⟨true, "vertex"⟩ :=
  ⟨(c1_auto_routing ⟨"auto", ["k"], "global"⟩ 0 "gemini-2.5-pro" rfl).1 (by decide),
   (c1_auto_routing ⟨"auto", ["k"], "global"⟩ 0 "gemini-9-zzz" rfl).2.1 (by decide)
     (by decide),
   (c1_auto_routing ⟨"auto", [], "global"⟩ 0 "gemini-9-zzz" rfl).2.2 (by decide) rfl⟩

/-! Section: Fatal errors and fallback -/

/-- C2 counterexample: the model is absent from the Registry (hence
"either" affinity per the spec) and the first — keyed — attempt fails
with a fatal (non-quota) error, yet the dispatcher performs ZERO
fallbacks to the alternate backend kind: only "apikey" is ever tried
and the failure is returned at once, refuting "exactly one fallback,
never zero". -/
theorem c2_fallback_counterexample :
    dispatch ⟨"auto", ["k"], "global"⟩ "gemini-robotics-er-1.5-preview"
        (fun _ => .fail "internal error") 0 =
      { env := { text := "Gemini error (gemini-robotics-er-1.5-preview): internal error",
                 isError := true },
        attempts := 1, kindsTried := ["apikey"], finalIdx := 0,
        lastErr := some "internal error" } := by
  decide

/-- C2 (amended): when the first attempt fails with an error classified
as fatal (not quota exhaustion), the dispatcher performs no backend
fallback at all: it makes exactly one attempt, tries exactly one
backend kind, and returns the failure envelope immediately. -/
theorem c2_fatal_no_fallback (cfg : Config) (model : String)
    (oracle : Nat → GenOutcome) (idx : Nat) (e : String)
    (h0 : oracle 0 = .fail e)
    (hf : isResourceExhausted e = false)
    (hp : (getClient cfg idx model).clientPresent = true) :
    dispatch cfg model oracle idx =
      { env := { text := finalErrorText cfg model (some e), isError := true },
        attempts := 1, kindsTried := [(getClient cfg idx model).via],
        finalIdx := idx, lastErr := some e } := by
  obtain ⟨f, hfuel⟩ : ∃ f, max cfg.apiKeys.length 1 = f + 1 :=
    ⟨max cfg.apiKeys.length 1 - 1, by omega⟩
  rw [dispatch, hfuel]
  simp only [dispatchLoop, h0, hp]
  simp [hf]

/-- Witness for C2 (amended): a fatal first failure on a keyed-only
configuration yields one attempt, one backend kind, no fallback. -/
theorem c2_fatal_no_fallback_witness :
    ((fun _ => GenOutcome.fail "boom") 0 = GenOutcome.fail "boom"
     ∧ isResourceExhausted "boom" = false
     ∧ (getClient ⟨"apikey", ["k"], "global"⟩ 0 "m").clientPresent = true)
    ∧ dispatch ⟨"apikey", ["k"], "global"⟩ "m" (fun _ => GenOutcome.fail "boom") 0 =
        { env := { text := finalErrorText ⟨"apikey", ["k"], "global"⟩ "m" (some "boom"),
                   isError := true },
          attempts := 1,
          kindsTried := [(getClient ⟨"apikey", ["k"], "global"⟩ 0 "m").via],
          finalIdx := 0, lastErr := some "boom" } :=
  ⟨⟨rfl, by decide, by decide⟩,
   c2_fatal_no_fallback ⟨"apikey", ["k"], "global"⟩ "m"
     (fun _ => GenOutcome.fail "boom") 0 "boom" rfl (by decide) (by decide)⟩

/-- C5: on a keyed configuration with a 2-credential pool where both
attempts fail with quota-exhaustion-classified errors, the dispatcher
makes exactly 2 attempts and returns an error-flagged envelope whose
text contains the exhausted-credential count "2". -/
theorem c5_exhausted_count (k1 k2 loc model e : String) (oracle : Nat → GenOutcome)
    (hq : isResourceExhausted e = true)
    (h0 : oracle 0 = .fail e) (h1 : oracle 1 = .fail e) :
    (dispatch ⟨"apikey", [k1, k2], loc⟩ model oracle 0).env.isError = true
    ∧ (dispatch ⟨"apikey", [k1, k2], loc⟩ model oracle 0).attempts = 2
    ∧ jsIncludes (dispatch ⟨"apikey", [k1, k2], loc⟩ model oracle 0).env.text "2"
        = true := by
  have hD : dispatch ⟨"apikey", [k1, k2], loc⟩ model oracle 0 =
      { env := { text := finalErrorText ⟨"apikey", [k1, k2], loc⟩ model (some e),
                 isError := true },
        attempts := 2, kindsTried := ["apikey", "apikey"], finalIdx := 0,
        lastErr := some e } := by
    show dispatchLoop ⟨"apikey", [k1, k2], loc⟩ model oracle 0 2 0 none 0 [] = _
    simp [dispatchLoop, getClient, getApiKey, rotateApiKey, h0, h1, hq]
  refine ⟨by rw [hD], by rw [hD], ?_⟩
  rw [hD]
  have hlen : (⟨"apikey", [k1, k2], loc⟩ : Config).apiKeys.length = 2 := rfl
  simp only [finalErrorText, hq, if_pos, hlen]
  apply jsIncludes_left
  apply jsIncludes_left
  apply jsIncludes_right
  apply jsIncludes_left
  apply jsIncludes_right
  decide

/-- Witness for C5: both keys of the pool ["a", "b"] fail with the
message "quota exceeded". -/
theorem c5_exhausted_count_witness :
    (isResourceExhausted "quota exceeded" = true
     ∧ (fun _ => GenOutcome.fail "quota exceeded") 0 = GenOutcome.fail "quota exceeded"
     ∧ (fun _ => GenOutcome.fail "quota exceeded") 1 = GenOutcome.fail "quota exceeded")
    ∧ ((dispatch ⟨"apikey", ["a", "b"], "global"⟩ "m"
          (fun _ => GenOutcome.fail "quota exceeded") 0).env.isError = true
       ∧ (dispatch ⟨"apikey", ["a", "b"], "global"⟩ "m"
            (fun _ => GenOutcome.fail "quota exceeded") 0).attempts = 2
       ∧ jsIncludes (dispatch ⟨"apikey", ["a", "b"], "global"⟩ "m"
            (fun _ => GenOutcome.fail "quota exceeded") 0).env.text "2" = true) :=
  ⟨⟨by decide, rfl, rfl⟩,
   c5_exhausted_count "a" "b" "global" "m" "quota exceeded"
     (fun _ => GenOutcome.fail "quota exceeded") (by decide) rfl rfl⟩

/-! Section: The shape of failure envelopes -/

theorem getClient_present (cfg : Config) (idx : Nat) (model : String)
    (h : goodCfg cfg) : (getClient cfg idx model).clientPresent = true := by
  unfold getClient
  split
  · next h1 =>
    simp [hasVertexClient, h1]
  · split
    · next h1 h2 =>
      rcases h with hk | hb | hb
      · exact getApiKey_isSome idx hk
      · exact absurd (hb.symm.trans h2) (by decide)
      · exact absurd hb h1
    · split
      · rfl
      · split
        · rfl
        · split
          · rfl
          · next h1 h2 h3 h4 h5 =>
            rcases h with hk | hb | hb
            · exact absurd (getApiKey_isSome idx hk) (by simpa using h4)
            · have hv : hasVertexClient cfg = true := by simp [hasVertexClient, hb]
              exact absurd hv (by simpa using h5)
            · exact absurd hb h1

theorem dispatchLoop_ok_step (cfg : Config) (model : String) (oracle : Nat → GenOutcome)
    (attempt f idx : Nat) (lastError : Option String) (attempts : Nat)
    (kinds : List String)
    (hp : (getClient cfg idx model).clientPresent = true)
    (t : String) (g : Bool) (ho : oracle attempt = .ok t g) :
    dispatchLoop cfg model oracle attempt (f + 1) idx lastError attempts kinds =
      { env := { text := successText cfg model (getClient cfg idx model).via idx t g,
                 isError := false },
        attempts := attempts + 1,
        kindsTried := kinds ++ [(getClient cfg idx model).via],
        finalIdx := idx, lastErr := lastError } := by
  simp only [dispatchLoop, ho]
  rw [if_neg (by simp [hp])]

theorem dispatchLoop_fail_step (cfg : Config) (model : String) (oracle : Nat → GenOutcome)
    (attempt f idx : Nat) (lastError : Option String) (attempts : Nat)
    (kinds : List String)
    (hp : (getClient cfg idx model).clientPresent = true)
    (e : String) (ho : oracle attempt = .fail e) :
    dispatchLoop cfg model oracle attempt (f + 1) idx lastError attempts kinds =
      (if (getClient cfg idx model).via = "apikey" ∧ isResourceExhausted e = true
          ∧ (rotateApiKey cfg.apiKeys idx).1 = true then
        dispatchLoop cfg model oracle (attempt + 1) f (rotateApiKey cfg.apiKeys idx).2
          (some e) (attempts + 1) (kinds ++ [(getClient cfg idx model).via])
      else
        { env := { text := finalErrorText cfg model (some e), isError := true },
          attempts := attempts + 1,
          kindsTried := kinds ++ [(getClient cfg idx model).via],
          finalIdx := idx, lastErr := some e }) := by
  simp only [dispatchLoop, ho]
  rw [if_neg (by simp [hp])]

theorem dispatchLoop_error_shape (cfg : Config) (model : String)
    (oracle : Nat → GenOutcome) (hgood : goodCfg cfg) :
    ∀ (fuel attempt idx : Nat) (e0 : String) (attempts : Nat) (kinds : List String),
      (dispatchLoop cfg model oracle attempt fuel idx (some e0) attempts kinds).env.isError
          = true →
      ∃ e, (dispatchLoop cfg model oracle attempt fuel idx (some e0) attempts kinds).lastErr
            = some e
        ∧ (dispatchLoop cfg model oracle attempt fuel idx (some e0) attempts kinds).env.text
            = finalErrorText cfg model (some e) := by
  intro fuel
  induction fuel with
  | zero =>
    intro attempt idx e0 attempts kinds _
    exact ⟨e0, rfl, rfl⟩
  | succ f ih =>
    intro attempt idx e0 attempts kinds hErr
    have hp := getClient_present cfg idx model hgood
    cases horacle : oracle attempt with
    | ok t g =>
      rw [dispatchLoop_ok_step cfg model oracle attempt f idx (some e0) attempts kinds
        hp t g horacle] at hErr
      simp at hErr
    | fail e =>
      rw [dispatchLoop_fail_step cfg model oracle attempt f idx (some e0) attempts kinds
        hp e horacle] at hErr ⊢
      by_cases hc : (getClient cfg idx model).via = "apikey"
          ∧ isResourceExhausted e = true ∧ (rotateApiKey cfg.apiKeys idx).1 = true
      · rw [if_pos hc] at hErr ⊢
        exact ih (attempt + 1) _ e _ _ hErr
      · rw [if_neg hc] at hErr ⊢
        exact ⟨e, rfl, rfl⟩

/-- The text of every failure envelope produced after at least one
generate attempt is the `finalErrorText` of the last error. -/
theorem dispatch_error_shape (cfg : Config) (model : String)
    (oracle : Nat → GenOutcome) (idx : Nat) (hgood : goodCfg cfg)
    (hErr : (dispatch cfg model oracle idx).env.isError = true) :
    ∃ e, (dispatch cfg model oracle idx).lastErr = some e
      ∧ (dispatch cfg model oracle idx).env.text = finalErrorText cfg model (some e) := by
  have hp := getClient_present cfg idx model hgood
  obtain ⟨f, hfuel⟩ : ∃ f, max cfg.apiKeys.length 1 = f + 1 :=
    ⟨max cfg.apiKeys.length 1 - 1, by omega⟩
  rw [dispatch, hfuel] at hErr ⊢
  cases horacle : oracle 0 with
  | ok t g =>
    rw [dispatchLoop_ok_step cfg model oracle 0 f idx none 0 [] hp t g horacle] at hErr
    simp at hErr
  | fail e =>
    rw [dispatchLoop_fail_step cfg model oracle 0 f idx none 0 [] hp e horacle] at hErr ⊢
    by_cases hc : (getClient cfg idx model).via = "apikey"
        ∧ isResourceExhausted e = true ∧ (rotateApiKey cfg.apiKeys idx).1 = true
    · rw [if_pos hc] at hErr ⊢
      exact dispatchLoop_error_shape cfg model oracle hgood f 1 _ e 1 _ hErr
    · rw [if_neg hc] at hErr ⊢
      exact ⟨e, rfl, rfl⟩

/-- The final error text always contains the model identifier. -/
theorem finalErrorText_includes_model (cfg : Config) (model : String)
    (le : Option String) :
    jsIncludes (finalErrorText cfg model le) model = true := by
  unfold finalErrorText
  apply jsIncludes_left
  apply jsIncludes_left
  apply jsIncludes_left
  apply jsIncludes_left
  apply jsIncludes_right
  exact jsIncludes_self model

/-- C6 counterexample: a fatal keyed failure produces the text
"Gemini error (x): boom", which names the model but no backend kind at
all — neither the internal via tags nor the human-readable backend
names occur in it, refuting "includes both the model identifier and
the backend kind that was attempted". -/
theorem c6_failure_message_counterexample :
    (dispatch ⟨"auto", ["a"], "global"⟩ "x" (fun _ => .fail "boom") 0).env.isError = true
    ∧ (dispatch ⟨"auto", ["a"], "global"⟩ "x" (fun _ => .fail "boom") 0).env.text =
        "Gemini error (x): boom"
    ∧ jsIncludes (dispatch ⟨"auto", ["a"], "global"⟩ "x"
        (fun _ => .fail "boom") 0).env.text "x" = true
    ∧ jsIncludes (dispatch ⟨"auto", ["a"], "global"⟩ "x"
        (fun _ => .fail "boom") 0).env.text "apikey" = false
    ∧ jsIncludes (dispatch ⟨"auto", ["a"], "global"⟩ "x"
        (fun _ => .fail "boom") 0).env.text "vertex" = false
    ∧ jsIncludes (dispatch ⟨"auto", ["a"], "global"⟩ "x"
        (fun _ => .fail "boom") 0).env.text "AI Studio" = false
    ∧ jsIncludes (dispatch ⟨"auto", ["a"], "global"⟩ "x"
        (fun _ => .fail "boom") 0).env.text "keyed" = false := by
  decide

/-- C6 (amended): every failure envelope produced after a generate
attempt includes the model identifier in its text, and — when the last
error matched the quota signature — the total credential count; the
backend kind is not part of the message (see the counterexample). -/
theorem c6_failure_message (cfg : Config) (model : String)
    (oracle : Nat → GenOutcome) (idx : Nat) (hgood : goodCfg cfg)
    (hErr : (dispatch cfg model oracle idx).env.isError = true) :
    jsIncludes (dispatch cfg model oracle idx).env.text model = true
    ∧ (lastErrQuota (dispatch cfg model oracle idx) = true →
        jsIncludes (dispatch cfg model oracle idx).env.text
          (toString cfg.apiKeys.length) = true) := by
  obtain ⟨e, hle, htext⟩ := dispatch_error_shape cfg model oracle idx hgood hErr
  constructor
  · rw [htext]
    exact finalErrorText_includes_model cfg model (some e)
  · intro hquota
    have hre : isResourceExhausted e = true := by
      unfold lastErrQuota at hquota
      rw [hle] at hquota
      exact hquota
    rw [htext]
    simp only [finalErrorText, hre, if_pos]
    apply jsIncludes_left
    apply jsIncludes_left
    apply jsIncludes_right
    apply jsIncludes_left
    apply jsIncludes_right
    exact jsIncludes_self _

/-- Witness for C6 (amended): a single-key pool failing with a quota
message; the failure text contains the model "m" and the count "1". -/
theorem c6_failure_message_witness :
    (goodCfg ⟨"apikey", ["k"], "global"⟩
     ∧ (dispatch ⟨"apikey", ["k"], "global"⟩ "m"
          (fun _ => .fail "quota hit") 0).env.isError = true)
    ∧ (jsIncludes (dispatch ⟨"apikey", ["k"], "global"⟩ "m"
          (fun _ => .fail "quota hit") 0).env.text "m" = true
       ∧ (lastErrQuota (dispatch ⟨"apikey", ["k"], "global"⟩ "m"
            (fun _ => .fail "quota hit") 0) = true →
          jsIncludes (dispatch ⟨"apikey", ["k"], "global"⟩ "m"
            (fun _ => .fail "quota hit") 0).env.text
            (toString (⟨"apikey", ["k"], "global"⟩ : Config).apiKeys.length) = true)) :=
  ⟨⟨Or.inl (by decide), by decide⟩,
   c6_failure_message ⟨"apikey", ["k"], "global"⟩ "m" (fun _ => .fail "quota hit") 0
     (Or.inl (by decide)) (by decide)⟩

/-! Section: Trimming -/

theorem dropWhile_head_false (p : Char → Bool) (l : List Char) :
    ∀ c, (l.dropWhile p).head? = some c → p c = false := by
  induction l with
  | nil =>
    intro c h
    simp [List.dropWhile] at h
  | cons d ds ih =>
    intro c h
    rw [List.dropWhile_cons] at h
    by_cases hd : p d = true
    · rw [if_pos hd] at h
      exact ih c h
    · rw [if_neg hd] at h
      have hdc : d = c := by simpa using h
      simp at hd
      subst hdc
      exact hd

theorem dropWhile_of_head_false (p : Char → Bool) (l : List Char)
    (h : ∀ c, l.head? = some c → p c = false) : l.dropWhile p = l := by
  cases l with
  | nil => rfl
  | cons d ds =>
    rw [List.dropWhile_cons, if_neg (by simp [h d rfl])]

theorem dropWhile_idem (p : Char → Bool) (l : List Char) :
    (l.dropWhile p).dropWhile p = l.dropWhile p :=
  dropWhile_of_head_false p _ (dropWhile_head_false p l)

theorem dropWhile_suffix_decomp (p : Char → Bool) (l : List Char) :
    ∃ t, l = t ++ l.dropWhile p := by
  induction l with
  | nil => exact ⟨[], rfl⟩
  | cons d ds ih =>
    by_cases hd : p d = true
    · obtain ⟨t, ht⟩ := ih
      rw [List.dropWhile_cons, if_pos hd]
      exact ⟨d :: t, by rw [List.cons_append, ← ht]⟩
    · rw [List.dropWhile_cons, if_neg hd]
      exact ⟨[], rfl⟩

theorem trimChars_idem (l : List Char) : trimChars (trimChars l) = trimChars l := by
  unfold trimChars
  set A := l.dropWhile Char.isWhitespace with hA
  set C := A.reverse.dropWhile Char.isWhitespace with hC
  have h1 : C.reverse.dropWhile Char.isWhitespace = C.reverse := by
    apply dropWhile_of_head_false
    intro c hc
    rw [List.head?_reverse] at hc
    have hCne : C ≠ [] := by
      intro hnil
      rw [hnil] at hc
      simp at hc
    obtain ⟨t, ht⟩ := dropWhile_suffix_decomp Char.isWhitespace A.reverse
    rw [← hC] at ht
    have hlast : C.getLast? = A.reverse.getLast? := by
      rw [ht, List.getLast?_append_of_ne_nil t hCne]
    have hrev : A.reverse.getLast? = A.head? := by
      rw [← List.head?_reverse, List.reverse_reverse]
    rw [hlast, hrev] at hc
    rw [hA] at hc
    exact dropWhile_head_false Char.isWhitespace l c hc
  rw [h1, List.reverse_reverse, hC, dropWhile_idem]

/-- C8 counterexample: the pool built from the list source "a,a" keeps
both copies of "a" — the construction pipeline
(split / trim / filter-empty) performs no de-duplication, refuting
"with duplicates removed". -/
theorem c8_no_dedup_counterexample :
    parseApiKeys "a,a" "" = ["a", "a"] ∧ ¬ (parseApiKeys "a,a" "").Nodup := by
  constructor
  · decide
  · decide

/-- C8 (amended): every credential in the pool built from the
comma-separated list source (falling back to the single-credential
source) is a non-empty, fully trimmed string (trimming it again is the
identity); duplicates, however, are kept. -/
theorem c8_pool_entries (a b k : String) (hk : k ∈ parseApiKeys a b) :
    k ≠ "" ∧ jsTrim k = k := by
  unfold parseApiKeys at hk
  simp only [List.mem_map, List.mem_filter] at hk
  obtain ⟨l, ⟨⟨x, hx_mem, hlx⟩, hl_ne⟩, rfl⟩ := hk
  subst hlx
  rw [decide_eq_true_eq] at hl_ne
  constructor
  · intro hEq
    apply hl_ne
    have hdata := congrArg String.data hEq
    simpa using hdata
  · show String.mk (trimChars (String.mk (trimChars x)).data) = String.mk (trimChars x)
    rw [show (String.mk (trimChars x)).data = trimChars x from rfl, trimChars_idem]

/-- Witness for C8 (amended): the entry "a" of the pool parsed from
" a ,, b" (trimmed from " a ", with the empty entry filtered out). -/
theorem c8_pool_entries_witness :
    (("a" : String) ∈ parseApiKeys " a ,, b" "")
    ∧ (("a" : String) ≠ "" ∧ jsTrim "a" = "a") :=
  ⟨by decide, c8_pool_entries " a ,, b" "" "a" (by decide)⟩

end GeminiServer

